import Mathlib

/-!
Verification development for the robot design-search results exporter
(examples/design_search/results.py).

The script is shallowly embedded here.  The external collaborators
(the graph-rewrite engine `rd.find_matches` / `rd.apply_rule`, the initial
graph, and robot normalization) are modelled as an abstract `Engine`
record, exactly mirroring how the script calls them.  Uncaught Python
exceptions are modelled with `Except Err`: an exception aborts the whole
run, which is what an uncaught exception does in the script (it has no
try/except anywhere).
-/

/-- Errors that the script can raise (as uncaught Python exceptions).
`invalidRuleIndex r` models the IndexError from `rules[r]`;
`rowOutOfRange i` models the lookup error from accessing a missing row. -/
inductive Err where
  | invalidRuleIndex : Int → Err
  | rowOutOfRange : Nat → Err
deriving DecidableEq

/-- One row of the MCTS log: the genotype (`rule_seq` column, already
parsed from its text form) and the scalar score (`result` column). -/
structure Entry where
  ruleSeq : List Int
  result : Int
deriving DecidableEq

/-- The external graph-rewrite collaborators used by
`make_robot_from_rule_sequence`: the initial graph
(`make_initial_graph`), the matcher (`rd.find_matches(rule.lhs, graph)`),
rule application (`rd.apply_rule(rule, graph, match)`) and normalization
(`build_normalized_robot`). -/
structure Engine where
  Rule : Type
  G : Type
  M : Type
  R : Type
  make_initial_graph : G
  find_matches : Rule → G → List M
  apply_rule : Rule → G → M → G
  build_normalized_robot : G → R

/-- Python list indexing `xs[i]`: nonnegative indices are positions from
the front, negative indices with `-len xs ≤ i` index from the back
(position `len xs + i`); anything else raises IndexError (here: none). -/
def pyGet {α : Type} (xs : List α) (i : Int) : Option α :=
  if 0 ≤ i then xs.get? i.toNat
  else if -(xs.length : Int) ≤ i then xs.get? (xs.length + i).toNat
  else none

/-- Resolve every index of a sequence via Python indexing; none if any
lookup is out of range. -/
def pyGetAll {α : Type} (xs : List α) : List Int → Option (List α)
  | [] => some []
  | i :: is =>
    match pyGet xs i with
    | none => none
    | some x =>
      match pyGetAll xs is with
      | none => none
      | some ys => some (x :: ys)

/-- The loop body of `make_robot_from_rule_sequence`:
for r in rule_sequence: matches = rd.find_matches(rules[r].lhs, graph);
if matches: graph = rd.apply_rule(rules[r], graph, matches[0]).
An out-of-range `rules[r]` raises (models Python IndexError). -/
def buildLoop (E : Engine) (rules : List E.Rule) : List Int → E.G → Except Err E.G
  | [], g => Except.ok g
  | r :: rest, g =>
    match pyGet rules r with
    | none => Except.error (Err.invalidRuleIndex r)
    | some rule =>
      match E.find_matches rule g with
      | [] => buildLoop E rules rest g
      | m :: _ => buildLoop E rules rest (E.apply_rule rule g m)

/-- `make_robot_from_rule_sequence(rule_sequence, rules)` from the script:
run the rewrite loop from the initial graph, then normalize. -/
def make_robot_from_rule_sequence (E : Engine) (rules : List E.Rule)
    (seq : List Int) : Except Err E.R :=
  match buildLoop E rules seq E.make_initial_graph with
  | Except.error err => Except.error err
  | Except.ok g => Except.ok (E.build_normalized_robot g)

/-- One rewrite step, written as a function on (graph, rule): no match
leaves the graph unchanged, otherwise the rule is applied at the first
match returned by the matcher. -/
def ruleStep (E : Engine) (g : E.G) (rule : E.Rule) : E.G :=
  match E.find_matches rule g with
  | [] => g
  | m :: _ => E.apply_rule rule g m

/-- Boolean test for the error case of `Except`. -/
def exceptIsError {ε α : Type} : Except ε α → Bool
  | Except.error _ => true
  | Except.ok _ => false

/-- Sequential effectful map, mirroring a Python for-loop over `xs` whose
body may raise: the first raised error aborts the whole loop. -/
def seqMapE {α β : Type} (f : α → Except Err β) : List α → Except Err (List β)
  | [] => Except.ok []
  | x :: xs =>
    match f x with
    | Except.error err => Except.error err
    | Except.ok y =>
      match seqMapE f xs with
      | Except.error err => Except.error err
      | Except.ok ys => Except.ok (y :: ys)

/-- The window `range(max(mid - offset, 0), min(mid + offset, n))` with
offset 10, for a natural center (the `iterations` branch).
Truncated subtraction on Nat is exactly `max(mid - 10, 0)`. -/
def natWindow (mid n : Nat) : List Nat :=
  List.range' (mid - 10) (min (mid + 10) n - (mid - 10))

/-- `np.arange(0, len(iteration_df) + 1, 1000)`: the multiples of 1000
that are at most `n`. -/
def midIndices (n : Nat) : List Nat :=
  (List.range ((n + 1000) / 1000)).map (fun k => k * 1000)

/-- Row indices visited by the `iterations` branch, in visit order. -/
def iterationsIndices (n : Nat) : List Nat :=
  (midIndices n).flatMap (fun m => natWindow m n)

/-- Python `round` on an exact rational `t / 10`: round half to even. -/
def pyRoundHalfEven (t : Int) : Int :=
  let q := Int.fdiv t 10
  let r := t - 10 * q
  if 2 * r < 10 then q
  else if 10 < 2 * r then q + 1
  else if q % 2 = 0 then q else q + 1

/-- `int(round(percentile * (len(iteration_df) - 1)))` for percentile
`i / 10` (the 11 values of `np.linspace(0.0, 1.0, 11)`), computed in
exact arithmetic. -/
def pctMid (i : Nat) (n : Nat) : Int :=
  pyRoundHalfEven (i * ((n : Int) - 1))

/-- The window `range(max(mid - 10, 0), min(mid + 10, n))` for an integer
center (the `percentiles` branch, where the center can be negative on an
empty log).  The clamps are spelled with `if` so that they reduce. -/
def intWindow (mid : Int) (n : Nat) : List Nat :=
  List.range' (if 0 ≤ mid - 10 then mid - 10 else 0).toNat
    (((if (n : Int) ≤ mid + 10 then (n : Int) else mid + 10)
      - (if 0 ≤ mid - 10 then mid - 10 else 0)).toNat)

/-- Row indices visited by the `percentiles` branch, in visit order.
Note: the script's statement iteration_df.sort_values(by='result') has no
effect (its return value is discarded and inplace is not set), so these
indices are applied to the log in its original order. -/
def percentilesIndices (n : Nat) : List Nat :=
  (List.range 11).flatMap (fun i => intWindow (pctMid i n) n)

/-- Process one selected row: fetch it, build its robot.  A missing row
or a bad rule index raises; otherwise the (row index, robot) pair is the
rendered output. -/
def runEntry (E : Engine) (rules : List E.Rule) (log : List Entry)
    (idx : Nat) : Except Err (Nat × E.R) :=
  match log.get? idx with
  | none => Except.error (Err.rowOutOfRange idx)
  | some e =>
    match make_robot_from_rule_sequence E rules e.ruleSeq with
    | Except.error err => Except.error err
    | Except.ok rb => Except.ok (idx, rb)

/-- The `iterations` branch of `main`. -/
def iterationsRun (E : Engine) (rules : List E.Rule) (log : List Entry) :
    Except Err (List (Nat × E.R)) :=
  seqMapE (runEntry E rules log) (iterationsIndices log.length)

/-- The `percentiles` branch of `main` (the discarded sort means rows are
taken from the log in original order). -/
def percentilesRun (E : Engine) (rules : List E.Rule) (log : List Entry) :
    Except Err (List (Nat × E.R)) :=
  seqMapE (runEntry E rules log) (percentilesIndices log.length)

/-- `range(0, len(iteration_df), 1000)`: the block start offsets of the
`iterations_top` branch. -/
def blockStarts (n : Nat) : List Nat :=
  (List.range ((n + 999) / 1000)).map (fun k => k * 1000)

/-- The block `iteration_df[start:end]` with
`end = min(start + 1000, len(iteration_df))`, each row paired with its
original row index (the df index column `iteration`). -/
def blockSlice (log : List Entry) (start : Nat) : List (Nat × Entry) :=
  (log.enum.drop start).take (min (start + 1000) log.length - start)

/-- Insert into a list sorted by the comparator `le`, before the first
element `y` with `le x y`. -/
def insertBy {α : Type} (le : α → α → Bool) (x : α) : List α → List α
  | [] => [x]
  | y :: ys => if le x y then x :: y :: ys else y :: insertBy le x ys

/-- Insertion sort by the comparator `le`. -/
def sortBy {α : Type} (le : α → α → Bool) : List α → List α
  | [] => []
  | x :: xs => insertBy le x (sortBy le xs)

/-- `block.sort_values(by='result', ascending=False).reset_index()`.
The sort is modelled by a comparison sort on the score, descending;
pandas' default algorithm (quicksort) does not promise any particular
order among equal scores, so only score-order facts may be read off this
model. -/
def sortedBlock (log : List Entry) (start : Nat) : List (Nat × Entry) :=
  sortBy (fun a b => decide (b.2.result ≤ a.2.result)) (blockSlice log start)

/-- The inner loop of the `iterations_top` branch: `for i in range(10)`,
`row = block.ix[i]` (raises when the sorted block has no row `i`), then
build and render the row's robot, labeled by its original row index. -/
def topBlock (E : Engine) (rules : List E.Rule) (log : List Entry)
    (start : Nat) : Except Err (List (Nat × E.R)) :=
  seqMapE (fun i =>
    match (sortedBlock log start).get? i with
    | none => Except.error (Err.rowOutOfRange i)
    | some p =>
      match make_robot_from_rule_sequence E rules p.2.ruleSeq with
      | Except.error err => Except.error err
      | Except.ok rb => Except.ok (p.1, rb)) (List.range 10)

/-- The `iterations_top` branch of `main`. -/
def iterationsTopRun (E : Engine) (rules : List E.Rule) (log : List Entry) :
    Except Err (List (Nat × E.R)) :=
  match seqMapE (topBlock E rules log) (blockStarts log.length) with
  | Except.error err => Except.error err
  | Except.ok blocks => Except.ok blocks.flatten

/-- One saved image, tagged by the branch that produced it and by its
filename label. -/
inductive ImageOut (R : Type) where
  | iteration : Nat → R → ImageOut R
  | top : Nat → R → ImageOut R
  | sorted : Nat → R → ImageOut R
  | terrain : ImageOut R

/-- The mode dispatch of `main`: a plain `if` for "iterations" followed
by an `if/elif/elif` chain for the other three modes.  A string matching
none of the four branches runs no branch at all. -/
def runMain (E : Engine) (rules : List E.Rule) (mode : String)
    (log : List Entry) : Except Err (List (ImageOut E.R)) :=
  match (if mode = "iterations" then iterationsRun E rules log else Except.ok []) with
  | Except.error err => Except.error err
  | Except.ok xs =>
    match (if mode = "iterations_top" then
        match iterationsTopRun E rules log with
        | Except.error err => Except.error err
        | Except.ok l => Except.ok (l.map (fun p => ImageOut.top p.1 p.2))
      else if mode = "percentiles" then
        match percentilesRun E rules log with
        | Except.error err => Except.error err
        | Except.ok l => Except.ok (l.map (fun p => ImageOut.sorted p.1 p.2))
      else if mode = "terrain" then Except.ok [ImageOut.terrain]
      else Except.ok []) with
    | Except.error err => Except.error err
    | Except.ok ys => Except.ok (xs.map (fun p => ImageOut.iteration p.1 p.2) ++ ys)

/-- The rows a run of the `percentiles` branch renders, as the script
computes them: window indices looked up in the log as loaded (the
`sort_values` call's result is discarded, so no reordering happens). -/
def percentilesRows (log : List Entry) : List (Option Entry) :=
  (percentilesIndices log.length).map (fun i => log.get? i)

/-- Follows the spec's words, for comparison with `percentilesRows`:
the same window indices looked up in the log sorted by score ascending. -/
def percentilesRowsSpecSorted (log : List Entry) : List (Option Entry) :=
  (percentilesIndices log.length).map
    (fun i => (sortBy (fun a b => decide (a.result ≤ b.result)) log).get? i)

/-- Camera parameters set by `get_robot_image` on the GLFW viewer. -/
structure CameraParams where
  position : ℝ × ℝ × ℝ
  yaw : ℝ
  pitch : ℝ
  distance : ℝ

/-- Componentwise difference of 3-vectors. -/
noncomputable def sub3 (u l : ℝ × ℝ × ℝ) : ℝ × ℝ × ℝ :=
  (u.1 - l.1, u.2.1 - l.2.1, u.2.2 - l.2.2)

/-- Euclidean norm of a 3-vector (`np.linalg.norm`). -/
noncomputable def norm3 (v : ℝ × ℝ × ℝ) : ℝ :=
  Real.sqrt (v.1 ^ 2 + v.2.1 ^ 2 + v.2.2 ^ 2)

/-- The camera-parameter assignments of `get_robot_image`.  When a robot
is present the simulator supplies its base-link world translation
(`base_tf[:3,3]`) and its world axis-aligned bounding box
(`lower`, `upper`); these three vectors are the function's input here. -/
noncomputable def get_robot_image_camera
    (robotPose : Option ((ℝ × ℝ × ℝ) × (ℝ × ℝ × ℝ) × (ℝ × ℝ × ℝ))) :
    CameraParams :=
  match robotPose with
  | some (basePos, lower, upper) =>
    { position := basePos
      yaw := Real.pi / 3
      pitch := -(Real.pi / 6)
      distance := 2 * norm3 (sub3 upper lower) }
  | none =>
    { position := (1, 0, 0)
      yaw := -(Real.pi / 3)
      pitch := -(Real.pi / 6)
      distance := 5 }

/-- A tiny concrete engine over Nat, used to evaluate the pipeline at
concrete inputs: odd rules match (at one location), even rules match
nowhere. -/
@[reducible] def natEngine : Engine where
  Rule := Nat
  G := Nat
  M := Nat
  R := Nat
  make_initial_graph := 0
  find_matches := fun rule g => if rule % 2 = 1 then [rule + g] else []
  apply_rule := fun rule g m => g + rule + m
  build_normalized_robot := fun g => g + 100

/-! ## Helper lemmas -/

theorem seqMapE_error_of_mem {α β : Type} (f : α → Except Err β) :
    ∀ (xs : List α) (x : α), x ∈ xs → exceptIsError (f x) = true →
      exceptIsError (seqMapE f xs) = true := by
  intro xs
  induction xs with
  | nil => intro x hx; cases hx
  | cons a rest ih =>
    intro x hx hfx
    rcases List.mem_cons.mp hx with h | h
    · subst h
      cases hfa : f x with
      | error err => simp [seqMapE, hfa, exceptIsError]
      | ok y => rw [hfa] at hfx; cases hfx
    · cases hfa : f a with
      | error err => simp [seqMapE, hfa, exceptIsError]
      | ok y =>
        have hrest := ih x h hfx
        cases hr : seqMapE f rest with
        | error err => simp [seqMapE, hfa, hr, exceptIsError]
        | ok ys => rw [hr] at hrest; cases hrest

theorem seqMapE_ok_mem {α β : Type} (f : α → Except Err β) :
    ∀ (xs : List α) (l : List β), seqMapE f xs = Except.ok l →
      ∀ x ∈ xs, exceptIsError (f x) = false := by
  intro xs
  induction xs with
  | nil => intro l _ x hx; cases hx
  | cons a rest ih =>
    intro l h x hx
    simp only [seqMapE] at h
    cases hfa : f a with
    | error err => rw [hfa] at h; cases h
    | ok y =>
      rw [hfa] at h
      cases hr : seqMapE f rest with
      | error err => rw [hr] at h; cases h
      | ok ys =>
        rw [hr] at h
        rcases List.mem_cons.mp hx with hh | hh
        · subst hh; rw [hfa]; rfl
        · exact ih ys hr x hh

theorem buildLoop_error_of_bad (E : Engine) (rules : List E.Rule) :
    ∀ (seq : List Int) (g : E.G) (r : Int), r ∈ seq → pyGet rules r = none →
      exceptIsError (buildLoop E rules seq g) = true := by
  intro seq
  induction seq with
  | nil => intro g r hr; cases hr
  | cons a rest ih =>
    intro g r hr hbad
    rcases List.mem_cons.mp hr with h | h
    · subst h
      simp [buildLoop, hbad, exceptIsError]
    · cases hget : pyGet rules a with
      | none => simp [buildLoop, hget, exceptIsError]
      | some rule =>
        cases hm : E.find_matches rule g with
        | nil => simpa [buildLoop, hget, hm] using ih g r h hbad
        | cons m ms =>
          simpa [buildLoop, hget, hm] using ih (E.apply_rule rule g m) r h hbad

theorem buildLoop_resolved (E : Engine) (rules : List E.Rule) :
    ∀ (seq : List Int) (resolved : List E.Rule) (g : E.G),
      pyGetAll rules seq = some resolved →
      buildLoop E rules seq g = Except.ok (resolved.foldl (ruleStep E) g) := by
  intro seq
  induction seq with
  | nil =>
    intro resolved g h
    simp only [pyGetAll, Option.some.injEq] at h
    subst h
    rfl
  | cons a rest ih =>
    intro resolved g h
    simp only [pyGetAll] at h
    cases hget : pyGet rules a with
    | none => rw [hget] at h; cases h
    | some rule =>
      rw [hget] at h
      cases hall : pyGetAll rules rest with
      | none => rw [hall] at h; cases h
      | some ys =>
        rw [hall] at h
        simp only [Option.some.injEq] at h
        subst h
        cases hm : E.find_matches rule g with
        | nil =>
          simp only [buildLoop, hget, hm, List.foldl_cons, ruleStep]
          exact ih ys g hall
        | cons m ms =>
          simp only [buildLoop, hget, hm, List.foldl_cons, ruleStep]
          exact ih ys (E.apply_rule rule g m) hall

theorem insertBy_length {α : Type} (le : α → α → Bool) (x : α) :
    ∀ l : List α, (insertBy le x l).length = l.length + 1 := by
  intro l
  induction l with
  | nil => rfl
  | cons y ys ih =>
    by_cases h : le x y = true
    · simp [insertBy, h]
    · simp only [insertBy]
      rw [if_neg h]
      simp [ih]

theorem sortBy_length {α : Type} (le : α → α → Bool) :
    ∀ l : List α, (sortBy le l).length = l.length := by
  intro l
  induction l with
  | nil => rfl
  | cons x xs ih => simp [sortBy, insertBy_length, ih]

/-! ## Claim theorems -/

/-- Claim C1 (code bug evidence): the percentile centers for a log of
length 101 are exactly 0, 10, ..., 100 as claimed, but the rows the
script actually emits come from the log in its original order, not the
score-ascending order: on the 2-row log with scores [5, 3] the emitted
rows differ from the spec's sorted-order selection, because the script's
sort_values call discards its result. -/
theorem percentiles_sort_values_discarded :
    (List.range 11).map (fun i => pctMid i 101) =
      [0, 10, 20, 30, 40, 50, 60, 70, 80, 90, 100]
    ∧ percentilesRows [⟨[], 5⟩, ⟨[], 3⟩] ≠
        percentilesRowsSpecSorted [⟨[], 5⟩, ⟨[], 3⟩] := by
  exact ⟨by decide, by decide⟩

/-- Claim C2 counterexample: the claim's selected index sets for a log of
length 2500 include index 10 (the inclusive upper end of the ±10 window
around 0), but the script never emits row 10: its windows are the
half-open ranges [m-10, m+10). -/
theorem iterations_window_claim_false :
    ¬ ∀ i : Nat, (i ∈ iterationsIndices 2500 ↔
      i ∈ List.range' 0 11 ++ List.range' 990 21 ++ List.range' 1990 21
        ++ List.range' 2490 11) := by
  intro h
  have h10 : (10 : Nat) ∈ iterationsIndices 2500 := (h 10).2 (by decide)
  exact absurd h10 (by decide)

/-- Claim C2 (amended): the `iterations` branch selects, for each
multiple m of 1000 with m ≤ n, the half-open clamped window
[max(m-10,0), min(m+10,n)); for a log of length 2500 the selected
indices are exactly 0..9, 990..1009 and 1990..2009. -/
theorem iterations_window_characterization :
    (∀ n i : Nat, i ∈ iterationsIndices n ↔
      ∃ m : Nat, m % 1000 = 0 ∧ m ≤ n ∧ m - 10 ≤ i ∧ i < min (m + 10) n)
    ∧ iterationsIndices 2500 =
        List.range' 0 10 ++ List.range' 990 20 ++ List.range' 1990 20 := by
  constructor
  · intro n i
    simp only [iterationsIndices, midIndices, natWindow, List.mem_flatMap,
      List.mem_map, List.mem_range, List.mem_range'_1]
    constructor
    · rintro ⟨m, ⟨k, hk, rfl⟩, h1, h2⟩
      exact ⟨k * 1000, by omega, by omega, by omega, by omega⟩
    · rintro ⟨m, hmod, hle, h1, h2⟩
      exact ⟨m, ⟨m / 1000, by omega, by omega⟩, by omega, by omega⟩
  · decide

/-- Claim C5 counterexample: on a log with zero entries, none of the
three log-driven modes raises any error; each completes with an empty
output (there is no EmptyLogError anywhere in the script). -/
theorem empty_log_no_error :
    iterationsRun natEngine [] [] = Except.ok []
    ∧ iterationsTopRun natEngine [] [] = Except.ok []
    ∧ percentilesRun natEngine [] [] = Except.ok [] := by
  exact ⟨rfl, rfl, rfl⟩

/-- Claim C5 (amended): for every engine and rule list, selection on a
zero-entry log succeeds with no output in all three log-driven modes. -/
theorem empty_log_ok_all_modes :
    ∀ (E : Engine) (rules : List E.Rule),
      iterationsRun E rules [] = Except.ok []
      ∧ iterationsTopRun E rules [] = Except.ok []
      ∧ percentilesRun E rules [] = Except.ok [] := by
  exact fun _ _ => ⟨rfl, rfl, rfl⟩

/-- Claim C6 counterexample: with the unrecognized mode string "foo" on
a nonempty log, the run neither raises an error nor produces output: it
returns successfully with nothing written (no UnknownSampleMode exists). -/
theorem unknown_mode_silent :
    runMain natEngine [] "foo" [⟨[], 0⟩] = Except.ok [] := rfl

/-- Claim C6 (amended): any mode string other than the four recognized
ones matches no branch of main's dispatch, so the run produces no output
and terminates successfully. -/
theorem unknown_mode_no_output (E : Engine) (rules : List E.Rule)
    (log : List Entry) (mode : String)
    (h1 : mode ≠ "iterations") (h2 : mode ≠ "iterations_top")
    (h3 : mode ≠ "percentiles") (h4 : mode ≠ "terrain") :
    runMain E rules mode log = Except.ok [] := by
  simp [runMain, h1, h2, h3, h4]

/-- Witness for the amended C6 theorem at the concrete mode "foo". -/
theorem unknown_mode_no_output_witness :
    runMain natEngine [] "foo" [⟨[], 1⟩] = Except.ok [] :=
  unknown_mode_no_output natEngine [] [⟨[], 1⟩] "foo"
    (by decide) (by decide) (by decide) (by decide)

/-- Claim C7: the camera framing of get_robot_image.  With a robot the
position is the base-link world translation, yaw is pi/3, pitch is
-pi/6 and the distance is twice the Euclidean norm of upper - lower of
the world bounding box (2 * sqrt 3 for the unit box); with no robot the
parameters are the fixed terrain viewpoint. -/
theorem camera_framing_assignment :
    (∀ basePos lower upper : ℝ × ℝ × ℝ,
      get_robot_image_camera (some (basePos, lower, upper)) =
        { position := basePos, yaw := Real.pi / 3, pitch := -(Real.pi / 6),
          distance := 2 * Real.sqrt ((upper.1 - lower.1) ^ 2
            + (upper.2.1 - lower.2.1) ^ 2 + (upper.2.2 - lower.2.2) ^ 2) })
    ∧ get_robot_image_camera none =
        { position := (1, 0, 0), yaw := -(Real.pi / 3),
          pitch := -(Real.pi / 6), distance := 5 }
    ∧ (get_robot_image_camera
        (some (((0.5 : ℝ), 0.5, 0.5), ((0 : ℝ), 0, 0), ((1 : ℝ), 1, 1)))).distance
        = 2 * Real.sqrt 3 := by
  refine ⟨fun b l u => rfl, rfl, ?_⟩
  show 2 * norm3 (sub3 (1, 1, 1) (0, 0, 0)) = 2 * Real.sqrt 3
  norm_num [norm3, sub3]

/-- Claim C4 counterexample: with one loaded rule, a 2-row log whose
first selected entry references rule index 5 makes the whole iterations
batch abort with the uncaught index error; the second (valid) entry is
never processed and no output list is produced. -/
theorem invalid_rule_index_aborts_batch :
    iterationsRun natEngine [0] [⟨[5], 0⟩, ⟨[0], 1⟩] =
      Except.error (Err.invalidRuleIndex 5) := rfl

/-- Claim C4 (amended): if any selected entry of the iterations batch
contains a rule index that is out of range of the loaded rule list, the
run ends in an error (the exception propagates; there is no per-entry
recovery). -/
theorem bad_rule_index_batch_error (E : Engine) (rules : List E.Rule)
    (log : List Entry) (i : Nat) (e : Entry) (r : Int)
    (hi : i ∈ iterationsIndices log.length) (he : log.get? i = some e)
    (hr : r ∈ e.ruleSeq) (hbad : pyGet rules r = none) :
    exceptIsError (iterationsRun E rules log) = true := by
  apply seqMapE_error_of_mem _ _ i hi
  have hb := buildLoop_error_of_bad E rules e.ruleSeq E.make_initial_graph r hr hbad
  simp only [runEntry, he, make_robot_from_rule_sequence]
  cases hc : buildLoop E rules e.ruleSeq E.make_initial_graph with
  | error err => rfl
  | ok g => rw [hc] at hb; cases hb

/-- Witness for the amended C4 theorem at a concrete batch. -/
theorem bad_rule_index_batch_error_witness :
    exceptIsError (iterationsRun natEngine [0] [⟨[5], 0⟩, ⟨[0], 1⟩]) = true :=
  bad_rule_index_batch_error natEngine [0] [⟨[5], 0⟩, ⟨[0], 1⟩] 0 ⟨[5], 0⟩ 5
    (by decide) rfl (by decide) rfl

/-- Claim C8: with every rule index of the sequence in range (resolving
to the list resolved), phenotype construction folds the rewrite step
over the sequence in order from the fixed initial graph, where a step
with no match keeps the graph and a step with matches applies the rule
at the first match, and the final graph is normalized. -/
theorem phenotype_build_characterization (E : Engine) (rules : List E.Rule)
    (seq : List Int) (resolved : List E.Rule)
    (h : pyGetAll rules seq = some resolved) :
    make_robot_from_rule_sequence E rules seq =
      Except.ok (E.build_normalized_robot
        (resolved.foldl (ruleStep E) E.make_initial_graph)) := by
  simp only [make_robot_from_rule_sequence,
    buildLoop_resolved E rules seq resolved E.make_initial_graph h]

/-- Witness for C8: a concrete build where rule 1 matches (and is
applied at its first match) and rule 2 never matches (and is skipped),
evaluated through the characterization. -/
theorem phenotype_build_characterization_witness :
    make_robot_from_rule_sequence natEngine [1, 2] [0, 1, -1] =
      Except.ok 102 := by
  have h := phenotype_build_characterization natEngine [1, 2] [0, 1, -1]
    [1, 2, 2] (by decide)
  exact h

/-- Claim C9: a negative rule index r with -L ≤ r ≤ -1 denotes position
L + r of the rule list, the lookup succeeds, construction on such an
index does not raise, and an out-of-range lookup happens exactly when
r ≥ L or r < -L. -/
theorem negative_rule_index_semantics (E : Engine) (rules : List E.Rule)
    (r : Int) (h1 : -(rules.length : Int) ≤ r) (h2 : r ≤ -1) :
    pyGet rules r = rules.get? (rules.length + r).toNat
    ∧ (pyGet rules r).isSome = true
    ∧ (∀ g : E.G, exceptIsError (buildLoop E rules [r] g) = false)
    ∧ (∀ s : Int, (pyGet rules s = none ↔
        ((rules.length : Int) ≤ s ∨ s < -(rules.length : Int)))) := by
  have hfirst : pyGet rules r = rules.get? (rules.length + r).toNat := by
    unfold pyGet
    rw [if_neg (by omega), if_pos h1]
  have hsome : (pyGet rules r).isSome = true := by
    rw [hfirst]
    cases hget : rules.get? ((rules.length : Int) + r).toNat with
    | none =>
      exfalso
      have := List.get?_eq_none.mp hget
      omega
    | some a => rfl
  refine ⟨hfirst, hsome, ?_, ?_⟩
  · intro g
    obtain ⟨a, ha⟩ := Option.isSome_iff_exists.mp hsome
    cases hm : E.find_matches a g with
    | nil => simp [buildLoop, ha, hm, exceptIsError]
    | cons m ms => simp [buildLoop, ha, hm, exceptIsError]
  · intro s
    unfold pyGet
    split_ifs with hs1 hs2
    · rw [List.get?_eq_none]; omega
    · rw [List.get?_eq_none]; omega
    · simp only [true_iff]; omega

/-- Witness for C9 at the concrete rule list [1, 2] and index -1, which
selects the last rule and builds without error. -/
theorem negative_rule_index_semantics_witness :
    pyGet ([1, 2] : List Nat) (-1) = some 2
    ∧ exceptIsError (buildLoop natEngine [1, 2] [-1] 0) = false := by
  have h := negative_rule_index_semantics natEngine [1, 2] (-1)
    (by decide) (by decide)
  exact ⟨h.1.trans rfl, h.2.2.1 0⟩

/-- Claim C10: when the log length mod 1000 is strictly between 0 and
10, the final block of the iterations_top branch has fewer than 10 rows,
the unconditional accesses block.ix[i] for i in range(10) run out of
rows, and the run fails. -/
theorem top_mode_partial_block_error (E : Engine) (rules : List E.Rule)
    (log : List Entry) (h1 : 0 < log.length % 1000)
    (h2 : log.length % 1000 < 10) :
    exceptIsError (iterationsTopRun E rules log) = true := by
  have hmem : (log.length / 1000) * 1000 ∈ blockStarts log.length := by
    simp only [blockStarts, List.mem_map, List.mem_range]
    exact ⟨log.length / 1000, by omega, rfl⟩
  have hlen : (sortedBlock log ((log.length / 1000) * 1000)).length
      = log.length % 1000 := by
    simp only [sortedBlock, sortBy_length, blockSlice, List.length_take,
      List.length_drop, List.enum_length]
    omega
  have hblock : exceptIsError
      (topBlock E rules log ((log.length / 1000) * 1000)) = true := by
    cases hc : topBlock E rules log ((log.length / 1000) * 1000) with
    | error err => rfl
    | ok l =>
      exfalso
      have hall := seqMapE_ok_mem _ _ _ hc (log.length % 1000)
        (by simp only [List.mem_range]; omega)
      have hnone : (sortedBlock log ((log.length / 1000) * 1000)).get?
          (log.length % 1000) = none :=
        List.get?_eq_none.mpr (le_of_eq hlen)
      rw [hnone] at hall
      cases hall
  unfold iterationsTopRun
  cases hs : seqMapE (topBlock E rules log) (blockStarts log.length) with
  | error err => rfl
  | ok bl =>
    exfalso
    have hok := seqMapE_ok_mem _ _ _ hs _ hmem
    rw [hblock] at hok
    cases hok

/-- Witness for C10 on a concrete 5-row log: the single (partial) block
has 5 rows, so the accesses at i = 5..9 fail and the run errors. -/
theorem top_mode_partial_block_error_witness :
    exceptIsError (iterationsTopRun natEngine []
      (List.replicate 5 ⟨[], 0⟩)) = true :=
  top_mode_partial_block_error natEngine [] (List.replicate 5 ⟨[], 0⟩)
    (by decide) (by decide)
